import Mathlib

/-!
# Shallow embedding of `UpdateStateHouseBattleMap.py`

The repository consists of one Python script that refreshes a Datawrapper
chart from a Google Sheet in four sequential steps (fetch CSV, upload data,
patch metadata with a timestamp, publish).  We embed the script faithfully:

* strings are `List Char` (`Str`);
* Python's `str.split(sep)` is modelled by `pySplit` (fuel-based structural
  recursion, fuel = length of the string, which always suffices);
* Python's substring test `sep in s` is the decidable infix relation;
* the network is an oracle `World : HttpRequest → HttpResponse`; each step
  returns the list of requests it performed together with an
  `Except PyErr` result, so temporal claims ("no later network call") are
  statements about the returned trace;
* `requests.Response.json()` is modelled by a `JValue` field of the
  response, and Python's `dict.get(key, default)` (which raises
  `AttributeError` on non-dict receivers) by `pyDictGet`;
* `datetime.now()` is a `PyDateTime` parameter (local wall-clock reading,
  including the process timezone name, which `strftime` would only use for
  the `%Z` directive), and `strftime` is interpreted by `pyStrftime`.
-/

/-- Strings of the embedded program, as lists of characters. -/
abbrev Str := List Char

/-- Shorthand turning a Lean string literal into the embedded string type. -/
def str (s : String) : Str := s.toList

/-- One step of Python `s.split(sep)` for non-empty `sep`, with explicit
fuel (one unit per character consumed); `pySplit` supplies sufficient fuel.
Scans left to right, splitting at each non-overlapping occurrence. -/
def pySplitF (sep : Str) : Nat → Str → List Str
  | _, [] => [[]]
  | 0, s => [s]
  | fuel + 1, c :: rest =>
    if sep <+: (c :: rest) ∧ sep ≠ [] then
      [] :: pySplitF sep fuel (rest.drop (sep.length - 1))
    else
      match pySplitF sep fuel rest with
      | [] => [[c]]
      | h :: t => (c :: h) :: t

/-- Python `s.split(sep)` for non-empty `sep`. -/
def pySplit (sep s : Str) : List Str := pySplitF sep s.length s

/-- Errors the script can raise: `ValueError` (bad URL / missing config),
`requests.HTTPError` from `raise_for_status`, and `AttributeError` from
calling `.get` on a non-dict JSON value. -/
inductive PyErr where
  | valueError (msg : Str)
  | httpError (status : Nat)
  | attributeError
  deriving DecidableEq

/-- JSON values, the model of parsed `response.json()` bodies. -/
inductive JValue where
  | null
  | bool (b : Bool)
  | num (n : Int)
  | s (v : Str)
  | arr (xs : List JValue)
  | obj (fields : List (Str × JValue))

instance : Inhabited JValue := ⟨.null⟩

/-- Python `d.get(key, default)`: on a dict, the value at `key` or the
default; on any non-dict value it raises `AttributeError`. -/
def pyDictGet (v : JValue) (key : Str) (dflt : JValue) : Except PyErr JValue :=
  match v with
  | .obj fields => .ok ((fields.lookup key).getD dflt)
  | _ => .error .attributeError

/-- HTTP verbs used by the four steps (each step uses a distinct verb). -/
inductive HttpMethod where
  | get
  | put
  | patch
  | post
  deriving DecidableEq

/-- Position of each verb's step in the fixed order
Fetch → Upload → Annotate → Publish. -/
def stepIdx : HttpMethod → Nat
  | .get => 0
  | .put => 1
  | .patch => 2
  | .post => 3

/-- Request bodies: none, raw text (`data=`), or JSON payload (`json=`). -/
inductive ReqBody where
  | empty
  | text (s : Str)
  | jsonB (j : JValue)

/-- An outbound HTTP request as the script builds it. -/
structure HttpRequest where
  method : HttpMethod
  url : Str
  headers : List (Str × Str)
  body : ReqBody

/-- An HTTP response: status code, text body, and parsed JSON body. -/
structure HttpResponse where
  status_code : Nat
  text : Str
  jsonBody : JValue

/-- The network oracle: what the remote services answer to each request. -/
abbrev World := HttpRequest → HttpResponse

/-- `requests` raises `HTTPError` from `raise_for_status` exactly for
status codes in `[400, 600)`. -/
def raise_for_status (r : HttpResponse) : Except PyErr Unit :=
  if 400 ≤ r.status_code ∧ r.status_code < 600 then
    .error (.httpError r.status_code)
  else
    .ok ()

/-- A local wall-clock reading from `datetime.now()`: naive local time
components plus the process timezone name (which only a `%Z` directive
would consult). -/
structure PyDateTime where
  year : Nat
  month : Nat
  day : Nat
  hour : Nat
  minute : Nat
  second : Nat
  tzname : Str

/-- Full month name, as CPython's `%B` renders months 1–12. -/
def monthName : Nat → Str
  | 1 => str "January"
  | 2 => str "February"
  | 3 => str "March"
  | 4 => str "April"
  | 5 => str "May"
  | 6 => str "June"
  | 7 => str "July"
  | 8 => str "August"
  | 9 => str "September"
  | 10 => str "October"
  | 11 => str "November"
  | 12 => str "December"
  | _ => []

/-- Decimal rendering of a natural number. -/
def natStr (n : Nat) : Str := (Nat.repr n).toList

/-- Two-digit zero-padded decimal, as `%d`, `%I`, `%M`, `%S` render. -/
def pad2 (n : Nat) : Str := if n < 10 then '0' :: natStr n else natStr n

/-- The hour on the 12-hour clock used by `%I` (0 ↦ 12, 13 ↦ 1, …). -/
def hour12 (h : Nat) : Nat := if h % 12 = 0 then 12 else h % 12

/-- `%p`: `AM` for hours 0–11, `PM` for hours 12–23. -/
def ampm (h : Nat) : Str := if h < 12 then str "AM" else str "PM"

/-- Expansion of one `strftime` directive character. -/
def fmtDirective (t : PyDateTime) (c : Char) : Str :=
  if c = 'B' then monthName t.month
  else if c = 'd' then pad2 t.day
  else if c = 'Y' then natStr t.year
  else if c = 'I' then pad2 (hour12 t.hour)
  else if c = 'H' then pad2 t.hour
  else if c = 'M' then pad2 t.minute
  else if c = 'S' then pad2 t.second
  else if c = 'p' then ampm t.hour
  else if c = 'Z' then t.tzname
  else ['%', c]

/-- Interpreter for `strftime` format strings: `%` introduces a directive,
every other character is copied literally. -/
def pyStrftime (t : PyDateTime) : Str → Str
  | [] => []
  | c :: rest =>
    if c = '%' then
      match rest with
      | [] => [c]
      | d :: rest' => fmtDirective t d ++ pyStrftime t rest'
    else
      c :: pyStrftime t rest

/-- The format string of `update_chart_metadata`'s timestamp. -/
def tsFormat : Str := str "%B %d, %Y at %I:%M %p UTC"

/-!
## The four steps

Each step takes the `World` oracle and returns the list of HTTP requests
it performed (in order) paired with its `Except` result, mirroring the
Python functions line by line.
-/

/-- The sheet id extraction `sheet_url.split('/d/')[1].split('/')[0]`
(Python's `[1]` is total here because the caller has already checked that
`'/d/'` occurs, so the first split has at least two parts; `[0]` is total
because `split` never returns an empty list). -/
def extractSheetId (sheet_url : Str) : Str :=
  ((pySplit (str "/d/") sheet_url).getD 1 [] |> pySplit (str "/")).headD []

/-- The derived CSV export URL for an extracted sheet id. -/
def sheetCsvUrl (sheet_id : Str) : Str :=
  str "https://docs.google.com/spreadsheets/d/" ++ sheet_id
    ++ str "/export?format=csv"

/-- The `GET` request of the fetch step (`requests.get(csv_url)`). -/
def sheetCsvRequest (sheet_id : Str) : HttpRequest :=
  ⟨.get, sheetCsvUrl sheet_id, [], .empty⟩

/-- `get_google_sheet_csv`: extract the sheet id after checking
`'/d/' in sheet_url`, build the CSV export URL, `GET` it,
`raise_for_status`, return `response.text`. -/
def get_google_sheet_csv (w : World) (sheet_url : Str) :
    List HttpRequest × Except PyErr Str :=
  if str "/d/" <:+: sheet_url then
    let req := sheetCsvRequest (extractSheetId sheet_url)
    let resp := w req
    ([req], (raise_for_status resp).map fun _ => resp.text)
  else
    ([], .error (.valueError (str "Invalid Google Sheets URL format")))

/-- The `PUT` request of the upload step, carrying the raw CSV text. -/
def dataRequest (api_key chart_id csv_data : Str) : HttpRequest :=
  ⟨.put,
    str "https://api.datawrapper.de/v3/charts/" ++ chart_id ++ str "/data",
    [(str "Authorization", str "Bearer " ++ api_key),
      (str "Content-Type", str "text/csv")],
    .text csv_data⟩

/-- `update_chart_data`: `PUT` the raw CSV to the chart data endpoint with
bearer auth and `text/csv` content type, then `raise_for_status`. -/
def update_chart_data (w : World) (api_key chart_id csv_data : Str) :
    List HttpRequest × Except PyErr Unit :=
  let req := dataRequest api_key chart_id csv_data
  let resp := w req
  ([req], raise_for_status resp)

/-- The `PATCH` request of the metadata step, carrying the nested
`metadata.annotate.notes` JSON payload built from the clock reading. -/
def metadataRequest (api_key chart_id : Str) (now : PyDateTime) :
    HttpRequest :=
  ⟨.patch,
    str "https://api.datawrapper.de/v3/charts/" ++ chart_id,
    [(str "Authorization", str "Bearer " ++ api_key),
      (str "Content-Type", str "application/json")],
    .jsonB (.obj [(str "metadata", .obj [(str "annotate",
      .obj [(str "notes",
        .s (str "Last updated: " ++ pyStrftime now tsFormat))])])])⟩

/-- `update_chart_metadata`: compute the timestamp from the local clock,
`PATCH` the chart endpoint with the nested notes payload, then
`raise_for_status`. -/
def update_chart_metadata (w : World) (api_key chart_id : Str)
    (now : PyDateTime) : List HttpRequest × Except PyErr Unit :=
  let req := metadataRequest api_key chart_id now
  let resp := w req
  ([req], raise_for_status resp)

/-- The `POST` request of the publish step (no body). -/
def publishRequest (api_key chart_id : Str) : HttpRequest :=
  ⟨.post,
    str "https://api.datawrapper.de/v3/charts/" ++ chart_id
      ++ str "/publish",
    [(str "Authorization", str "Bearer " ++ api_key),
      (str "Content-Type", str "application/json")],
    .empty⟩

/-- The result of the publish step on a given response:
`raise_for_status`, then
`result.get('data', {}).get('publicUrl', 'URL not available')` on the
JSON body (errors short-circuit, as Python exceptions do). -/
def publishExtract (resp : HttpResponse) : Except PyErr JValue := do
  let _ ← raise_for_status resp
  let d ← pyDictGet resp.jsonBody (str "data") (.obj [])
  pyDictGet d (str "publicUrl") (.s (str "URL not available"))

/-- `publish_chart`: `POST` the publish endpoint with no body, then
status check and public-URL extraction on the response. -/
def publish_chart (w : World) (api_key chart_id : Str) :
    List HttpRequest × Except PyErr JValue :=
  let req := publishRequest api_key chart_id
  ([req], publishExtract (w req))

/-- The process environment: `os.environ.get`. -/
abbrev Env := String → Option Str

/-- Python truthiness test `not x` for an optional string: true when the
value is absent or the empty string. -/
def isFalsyStr : Option Str → Bool
  | none => true
  | some s => s.isEmpty

/-- `main`: read the three configuration values, validate the two
mandatory ones, then run fetch → upload → annotate → publish in order,
stopping at the first error.  Returns the full trace of HTTP requests
performed together with the final outcome. -/
def Script.main (env : Env) (w : World) (now : PyDateTime) :
    List HttpRequest × Except PyErr Unit :=
  let api_key := env "DATAWRAPPER_API_KEY"
  let chart_id := (env "DATAWRAPPER_CHART_ID").getD (str "kg7Xj")
  let sheet_url := env "GOOGLE_SHEET_URL"
  if isFalsyStr api_key then
    ([], .error (.valueError
      (str "DATAWRAPPER_API_KEY environment variable is required")))
  else if isFalsyStr sheet_url then
    ([], .error (.valueError
      (str "GOOGLE_SHEET_URL environment variable is required")))
  else
    let key := api_key.getD []
    let (t1, r1) := get_google_sheet_csv w (sheet_url.getD [])
    match r1 with
    | .error e => (t1, .error e)
    | .ok csv_data =>
      let (t2, r2) := update_chart_data w key chart_id csv_data
      match r2 with
      | .error e => (t1 ++ t2, .error e)
      | .ok _ =>
        let (t3, r3) := update_chart_metadata w key chart_id now
        match r3 with
        | .error e => (t1 ++ t2 ++ t3, .error e)
        | .ok _ =>
          let (t4, r4) := publish_chart w key chart_id
          (t1 ++ t2 ++ t3 ++ t4, r4.map fun _ => ())

/-!
## Concrete fixtures for witnesses
-/

/-- A benign network oracle: every request succeeds with status 200 and
an empty JSON object body. -/
def w0 : World := fun _ => ⟨200, str "a,b", .obj []⟩

/-- A network oracle whose responses carry a publish result body with a
`data.publicUrl` field. -/
def wPub : World := fun _ =>
  ⟨200, [], .obj [(str "data",
    .obj [(str "publicUrl", .s (str "https://example.com/chart1"))])]⟩

/-- A network oracle that answers every request with status 500. -/
def wErr : World := fun _ => ⟨500, [], .null⟩

/-- An empty process environment. -/
def env0 : Env := fun _ => none

/-- A fully configured process environment. -/
def env1 : Env := fun name =>
  if name = "DATAWRAPPER_API_KEY" then some (str "secret")
  else if name = "GOOGLE_SHEET_URL" then
    some (str "https://docs.google.com/spreadsheets/d/ABC123/edit#gid=0")
  else none

/-- A fixed clock reading. -/
def now0 : PyDateTime := ⟨2025, 1, 2, 13, 5, 0, str "EST"⟩

/-!
## Properties of `pySplit`

The split function is defined with explicit fuel, so we first show the
fuel is irrelevant as long as it covers the string, then characterize
splitting at a first occurrence of the separator.
-/

lemma pySplitF_nil (sep : Str) (fuel : Nat) : pySplitF sep fuel [] = [[]] := by
  cases fuel <;> rfl

lemma pySplitF_congr (sep : Str) :
    ∀ (fuel₁ fuel₂ : Nat) (s : Str), s.length ≤ fuel₁ → s.length ≤ fuel₂ →
      pySplitF sep fuel₁ s = pySplitF sep fuel₂ s := by
  intro fuel₁
  induction fuel₁ with
  | zero =>
    intro fuel₂ s h₁ _
    have hs : s = [] := List.length_eq_zero.mp (Nat.le_zero.mp h₁)
    subst hs
    rw [pySplitF_nil, pySplitF_nil]
  | succ f ih =>
    intro fuel₂ s h₁ h₂
    match s with
    | [] => rw [pySplitF_nil, pySplitF_nil]
    | c :: rest =>
      match fuel₂ with
      | 0 => simp at h₂
      | f₂ + 1 =>
        simp only [List.length_cons, Nat.add_le_add_iff_right] at h₁ h₂
        simp only [pySplitF]
        by_cases hp : sep <+: (c :: rest) ∧ sep ≠ []
        · rw [if_pos hp, if_pos hp,
            ih f₂ (rest.drop (sep.length - 1))
              (by simp only [List.length_drop]; omega)
              (by simp only [List.length_drop]; omega)]
        · rw [if_neg hp, if_neg hp, ih f₂ rest h₁ h₂]

lemma pySplitF_eq_pySplit (sep : Str) (fuel : Nat) (s : Str)
    (h : s.length ≤ fuel) : pySplitF sep fuel s = pySplit sep s :=
  pySplitF_congr sep fuel s.length s h le_rfl

/-- A string that does not contain the separator is not split. -/
lemma pySplit_of_sep_absent (sep : Str) :
    ∀ s : Str, ¬ sep <:+: s → pySplit sep s = [s] := by
  intro s
  induction s with
  | nil => intro _; rfl
  | cons c rest ih =>
    intro h
    show pySplitF sep (rest.length + 1) (c :: rest) = [c :: rest]
    simp only [pySplitF]
    rw [if_neg fun hpair => h hpair.1.isInfix,
      show pySplitF sep rest.length rest = pySplit sep rest from rfl,
      ih fun hi => h (List.infix_cons hi)]

/-- Splitting at a first occurrence of the separator: if `sep` does not
occur inside `p ++ sep` before its final position, the split of
`p ++ sep ++ q` is `p` followed by the split of `q`. -/
lemma pySplit_append (sep : Str) (hsep : sep ≠ []) :
    ∀ p q : Str, ¬ sep <:+: (p ++ sep.dropLast) →
      pySplit sep (p ++ sep ++ q) = p :: pySplit sep q := by
  intro p
  induction p with
  | nil =>
    intro q h
    obtain ⟨d, ds, rfl⟩ : ∃ d ds, sep = d :: ds := by
      cases sep with
      | nil => exact absurd rfl hsep
      | cons d ds => exact ⟨d, ds, rfl⟩
    show pySplitF (d :: ds) ((([] : Str) ++ (d :: ds) ++ q).length)
      (([] : Str) ++ (d :: ds) ++ q) = [] :: pySplit (d :: ds) q
    simp only [List.nil_append, List.cons_append, List.length_cons,
      List.length_append]
    simp only [pySplitF]
    rw [if_pos ⟨⟨q, by simp⟩, hsep⟩]
    simp only [List.length_cons, Nat.add_sub_cancel, List.drop_left]
    rw [pySplitF_eq_pySplit (d :: ds) (ds.length + q.length) q (by omega)]
  | cons a p' ih =>
    intro q h
    show pySplitF sep (((a :: p') ++ sep ++ q).length) ((a :: p') ++ sep ++ q)
      = (a :: p') :: pySplit sep q
    simp only [List.cons_append, List.length_cons]
    simp only [pySplitF]
    have hpre : (a :: (p' ++ sep.dropLast)) <+: (a :: (p' ++ sep ++ q)) := by
      refine ⟨sep.getLast hsep :: q, ?_⟩
      simp only [List.cons_append, List.append_assoc, List.nil_append]
      rw [show sep.getLast hsep :: q = [sep.getLast hsep] ++ q from rfl,
        ← List.append_assoc sep.dropLast, List.dropLast_append_getLast hsep]
    have hnp : ¬ (sep <+: (a :: (p' ++ sep ++ q)) ∧ sep ≠ []) := by
      rintro ⟨hp, -⟩
      apply h
      have hlen : sep.length ≤ (a :: (p' ++ sep.dropLast)).length := by
        simp only [List.length_cons, List.length_append, List.length_dropLast]
        have : 0 < sep.length := List.length_pos.mpr hsep
        omega
      have := List.prefix_of_prefix_length_le hp hpre hlen
      simpa using this.isInfix
    rw [if_neg hnp,
      show pySplitF sep ((p' ++ sep ++ q).length) (p' ++ sep ++ q)
        = pySplit sep (p' ++ sep ++ q) from rfl,
      ih q (fun hi => h (by simpa using List.infix_cons hi))]

/-- Any string containing the separator decomposes at the FIRST occurrence:
the part before it contains no occurrence, not even one overlapping into
the separator. -/
lemma exists_first_occurrence (sep : Str) (hsep : sep ≠ []) :
    ∀ q : Str, sep <:+: q →
      ∃ a b : Str, q = a ++ sep ++ b ∧ ¬ sep <:+: (a ++ sep.dropLast) := by
  intro q
  induction q with
  | nil =>
    intro h
    exact absurd (List.eq_nil_of_infix_nil h) hsep
  | cons c q' ih =>
    intro h
    by_cases hp : sep <+: c :: q'
    · obtain ⟨t, ht⟩ := hp
      refine ⟨[], t, by simp [← ht], ?_⟩
      intro hi
      have hlen := hi.length_le
      have hpos : 0 < sep.length := List.length_pos.mpr hsep
      simp only [List.nil_append, List.length_dropLast] at hlen
      omega
    · have h' : sep <:+: q' := (List.infix_cons_iff.mp h).resolve_left hp
      obtain ⟨a, b, heq, hcond⟩ := ih h'
      refine ⟨c :: a, b, by simp [heq], ?_⟩
      intro hi
      simp only [List.cons_append] at hi
      rcases List.infix_cons_iff.mp hi with hpre | hinf
      · apply hp
        have hstep : (c :: (a ++ sep.dropLast)) <+: (c :: q') := by
          refine ⟨sep.getLast hsep :: b, ?_⟩
          simp only [List.cons_append, List.append_assoc, heq]
          rw [show sep.getLast hsep :: b = [sep.getLast hsep] ++ b from rfl,
            ← List.append_assoc sep.dropLast,
            List.dropLast_append_getLast hsep]
        exact hpre.trans hstep
      · exact hcond hinf

/-- The first component of a Python split is the whole string when the
separator does not occur. -/
lemma pySplit_headD_of_sep_absent (sep s : Str) (h : ¬ sep <:+: s) :
    (pySplit sep s).headD [] = s := by
  rw [pySplit_of_sep_absent sep s h]; rfl

/-- The first component of a Python split is the part before the first
occurrence of the separator. -/
lemma pySplit_headD_append (sep : Str) (hsep : sep ≠ []) (p q : Str)
    (h : ¬ sep <:+: (p ++ sep.dropLast)) :
    (pySplit sep (p ++ sep ++ q)).headD [] = p := by
  rw [pySplit_append sep hsep p q h]; rfl

/-- If the shown `/d/` is the first occurrence of `/d/` in the URL, the
extracted sheet id is `ABC123`, whatever follows `edit`. -/
lemma extractSheetId_first (p s : Str)
    (h : ¬ str "/d/" <:+: (p ++ str "/d")) :
    extractSheetId (p ++ str "/d/ABC123/edit" ++ s) = str "ABC123" := by
  have hsepD : str "/d/" ≠ [] := by decide
  have hdropD : (str "/d/").dropLast = str "/d" := by decide
  have hsplitUrl : p ++ str "/d/ABC123/edit" ++ s
      = p ++ str "/d/" ++ (str "ABC123/edit" ++ s) := by
    rw [show str "/d/ABC123/edit" = str "/d/" ++ str "ABC123/edit" by decide]
    simp [List.append_assoc]
  set q : Str := str "ABC123/edit" ++ s with hq_def
  have hqshape : q = str "ABC123" ++ str "/" ++ (str "edit" ++ s) := by
    rw [hq_def, show str "ABC123/edit" = str "ABC123" ++ str "/" ++ str "edit"
      by decide]
    simp [List.append_assoc]
  have hsplit1 : pySplit (str "/d/") (p ++ str "/d/ABC123/edit" ++ s)
      = p :: pySplit (str "/d/") q := by
    rw [hsplitUrl]
    exact pySplit_append (str "/d/") hsepD p q (by rwa [hdropD])
  have hdrop1 : (str "/").dropLast = ([] : Str) := by decide
  by_cases hq : str "/d/" <:+: q
  · obtain ⟨a, b, heq, hcond⟩ := exists_first_occurrence (str "/d/") hsepD q hq
    have hsplit2 : pySplit (str "/d/") q = a :: pySplit (str "/d/") b := by
      rw [heq]
      exact pySplit_append (str "/d/") hsepD a b (by rwa [hdropD])
    -- the first occurrence cannot start within the first seven characters
    have halen : 7 ≤ a.length := by
      by_contra hlt
      push_neg at hlt
      apply hcond.elim
      have hpre : a ++ str "/d/" <+: q := ⟨b, heq.symm⟩
      have htake : a ++ str "/d/" = q.take (a.length + 3) := by
        have := List.prefix_iff_eq_take.mp hpre
        simpa using this
      have htake9 : q.take 9 = str "ABC123/ed" := by
        rw [hq_def, List.take_append_of_le_length (by decide)]
        decide
      have hsub : a ++ str "/d/" <+: q.take 9 := by
        have : a ++ str "/d/" = (q.take 9).take (a.length + 3) := by
          rw [List.take_take, Nat.min_eq_left (by omega)]
          exact htake
        rw [this]
        exact List.take_prefix _ _
      exfalso
      have hinf : str "/d/" <:+: q.take 9 := by
        obtain ⟨t, ht⟩ := hsub
        exact ⟨a, t, by rw [← ht, List.append_assoc]⟩
      rw [htake9] at hinf
      exact (by decide : ¬ str "/d/" <:+: str "ABC123/ed") hinf
    have ha7 : a = str "ABC123" ++ str "/" ++ a.drop 7 := by
      have hatake : a = q.take a.length := by
        rw [heq, List.append_assoc, List.take_left]
      have htake7 : a.take 7 = str "ABC123/" := by
        rw [hatake, List.take_take, Nat.min_eq_left halen, hq_def,
          List.take_append_of_le_length (by decide)]
        decide
      calc a = a.take 7 ++ a.drop 7 := (List.take_append_drop 7 a).symm
        _ = str "ABC123/" ++ a.drop 7 := by rw [htake7]
        _ = str "ABC123" ++ str "/" ++ a.drop 7 := by
            rw [show str "ABC123/" = str "ABC123" ++ str "/" by decide]
    show ((pySplit (str "/d/") (p ++ str "/d/ABC123/edit" ++ s)).getD 1 []
      |> pySplit (str "/")).headD [] = str "ABC123"
    rw [hsplit1]
    simp only [List.getD_cons_succ, List.getD_cons_zero, hsplit2]
    rw [ha7]
    exact pySplit_headD_append (str "/") (by decide) (str "ABC123") (a.drop 7)
      (by rw [hdrop1]; simp only [List.append_nil]; decide)
  · have hsplit2 : pySplit (str "/d/") q = [q] :=
      pySplit_of_sep_absent (str "/d/") q hq
    show ((pySplit (str "/d/") (p ++ str "/d/ABC123/edit" ++ s)).getD 1 []
      |> pySplit (str "/")).headD [] = str "ABC123"
    rw [hsplit1]
    simp only [List.getD_cons_succ, List.getD_cons_zero, hsplit2]
    rw [hqshape]
    exact pySplit_headD_append (str "/") (by decide) (str "ABC123")
      (str "edit" ++ s)
      (by rw [hdrop1]; simp only [List.append_nil]; decide)

/-!
## Run decomposition of `main`
-/

/-- With both mandatory configuration values present and a well-formed
sheet URL, `main` performs the four requests in order and stops at the
first failing status: its whole behaviour is this four-way case split. -/
lemma main_run (env : Env) (w : World) (now : PyDateTime) (k u cid csv : Str)
    (g p2 pa po : HttpRequest)
    (hk : env "DATAWRAPPER_API_KEY" = some k) (hk' : k ≠ [])
    (hu : env "GOOGLE_SHEET_URL" = some u) (hu' : u ≠ [])
    (hc : str "/d/" <:+: u)
    (hcid : cid = (env "DATAWRAPPER_CHART_ID").getD (str "kg7Xj"))
    (hg : g = sheetCsvRequest (extractSheetId u))
    (hcsv : csv = (w g).text)
    (hp2 : p2 = dataRequest k cid csv)
    (hpa : pa = metadataRequest k cid now)
    (hpo : po = publishRequest k cid) :
    Script.main env w now =
      match raise_for_status (w g) with
      | .error e => ([g], .error e)
      | .ok _ =>
        match raise_for_status (w p2) with
        | .error e => ([g, p2], .error e)
        | .ok _ =>
          match raise_for_status (w pa) with
          | .error e => ([g, p2, pa], .error e)
          | .ok _ => ([g, p2, pa, po], (publishExtract (w po)).map fun _ => ()) := by
  subst hcid hg hcsv hp2 hpa hpo
  have hkf : isFalsyStr (env "DATAWRAPPER_API_KEY") = false := by
    rw [hk]
    cases k with
    | nil => exact absurd rfl hk'
    | cons c cs => rfl
  have huf : isFalsyStr (env "GOOGLE_SHEET_URL") = false := by
    rw [hu]
    cases u with
    | nil => exact absurd rfl hu'
    | cons c cs => rfl
  have hug : (env "GOOGLE_SHEET_URL").getD [] = u := by rw [hu]; rfl
  have hkg : (env "DATAWRAPPER_API_KEY").getD [] = k := by rw [hk]; rfl
  cases hg : raise_for_status (w (sheetCsvRequest (extractSheetId u))) with
  | error e =>
    simp [Script.main, hkf, huf, hug, hkg, get_google_sheet_csv, hc, hg,
      Except.map]
  | ok v =>
    cases hp : raise_for_status (w (dataRequest k
        ((env "DATAWRAPPER_CHART_ID").getD (str "kg7Xj"))
        ((w (sheetCsvRequest (extractSheetId u))).text))) with
    | error e =>
      simp [Script.main, hkf, huf, hug, hkg, get_google_sheet_csv, hc, hg,
        update_chart_data, hp, Except.map]
    | ok v2 =>
      cases hpa : raise_for_status (w (metadataRequest k
          ((env "DATAWRAPPER_CHART_ID").getD (str "kg7Xj")) now)) with
      | error e =>
        simp [Script.main, hkf, huf, hug, hkg, get_google_sheet_csv, hc, hg,
          update_chart_data, hp, update_chart_metadata, hpa, Except.map]
      | ok v3 =>
        simp [Script.main, hkf, huf, hug, hkg, get_google_sheet_csv, hc, hg,
          update_chart_data, hp, update_chart_metadata, hpa, publish_chart,
          Except.map]

/-!
## The claims
-/

/-- C3: for every spreadsheet URL without a `/d/` segment, the fetch step
raises `ValueError("Invalid Google Sheets URL format")` and performs no
network call (its request trace is empty). -/
theorem C3_invalid_url_fails_without_network (w : World) (sheet_url : Str)
    (h : ¬ str "/d/" <:+: sheet_url) :
    get_google_sheet_csv w sheet_url
      = ([], .error (.valueError (str "Invalid Google Sheets URL format"))) := by
  unfold get_google_sheet_csv
  rw [if_neg h]

theorem C3_invalid_url_fails_without_network_witness :
    (¬ str "/d/" <:+: str "https://example.com/sheet")
    ∧ get_google_sheet_csv w0 (str "https://example.com/sheet")
      = ([], .error (.valueError (str "Invalid Google Sheets URL format"))) :=
  ⟨by decide,
    C3_invalid_url_fails_without_network w0 (str "https://example.com/sheet")
      (by decide)⟩

/-- C9: the fetch step raises the input-format `ValueError` exactly when
the URL lacks `/d/`; whenever `/d/` is present — even with nothing after
it — the step instead proceeds to one network request. -/
theorem C9_valueerror_iff_marker_missing (w : World) (u : Str) :
    ((∃ msg, (get_google_sheet_csv w u).2 = .error (.valueError msg))
        ↔ ¬ str "/d/" <:+: u)
    ∧ (str "/d/" <:+: u → (get_google_sheet_csv w u).1.length = 1) := by
  constructor
  · constructor
    · rintro ⟨msg, hmsg⟩ hc
      unfold get_google_sheet_csv at hmsg
      rw [if_pos hc] at hmsg
      have hnv : ∀ r : HttpResponse,
          (raise_for_status r).map (fun _ => r.text)
            ≠ Except.error (PyErr.valueError msg) := by
        intro r
        unfold raise_for_status
        split_ifs <;> simp [Except.map]
      exact hnv _ hmsg
    · intro hc
      unfold get_google_sheet_csv
      rw [if_neg hc]
      exact ⟨_, rfl⟩
  · intro hc
    unfold get_google_sheet_csv
    rw [if_pos hc]
    rfl

theorem C9_valueerror_iff_marker_missing_witness :
    (get_google_sheet_csv w0 (str "x/d/")).1.length = 1 :=
  (C9_valueerror_iff_marker_missing w0 (str "x/d/")).2 (by decide)

/-- C4: if either mandatory environment value is absent, `main` fails with
a configuration `ValueError` and performs no network request at all. -/
theorem C4_missing_config_fails_before_network (env : Env) (w : World)
    (now : PyDateTime)
    (h : env "DATAWRAPPER_API_KEY" = none ∨ env "GOOGLE_SHEET_URL" = none) :
    (Script.main env w now).1 = []
    ∧ ∃ msg, (Script.main env w now).2 = .error (.valueError msg) := by
  unfold Script.main
  by_cases hk : isFalsyStr (env "DATAWRAPPER_API_KEY") = true
  · rw [if_pos hk]
    exact ⟨rfl, _, rfl⟩
  · rw [if_neg hk]
    rcases h with h | h
    · rw [h] at hk
      exact absurd rfl hk
    · rw [if_pos (by rw [h]; rfl)]
      exact ⟨rfl, _, rfl⟩

theorem C4_missing_config_fails_before_network_witness :
    (env0 "DATAWRAPPER_API_KEY" = none ∨ env0 "GOOGLE_SHEET_URL" = none)
    ∧ (Script.main env0 w0 now0).1 = []
    ∧ ∃ msg, (Script.main env0 w0 now0).2 = .error (.valueError msg) :=
  ⟨Or.inl rfl,
    C4_missing_config_fails_before_network env0 w0 now0 (Or.inl rfl)⟩

/-- C5: when the publish response has a success status and its JSON body
holds a string `v` at `data.publicUrl`, the publisher returns exactly
`v`. -/
theorem C5_publish_returns_public_url (w : World) (api_key chart_id : Str)
    (fs fs2 : List (Str × JValue)) (v : Str)
    (hst : (w (publishRequest api_key chart_id)).status_code < 400)
    (hj : (w (publishRequest api_key chart_id)).jsonBody = .obj fs)
    (hd : fs.lookup (str "data") = some (.obj fs2))
    (hu : fs2.lookup (str "publicUrl") = some (.s v)) :
    publish_chart w api_key chart_id
      = ([publishRequest api_key chart_id], .ok (.s v)) := by
  unfold publish_chart
  have hcond : ¬ (400 ≤ (w (publishRequest api_key chart_id)).status_code
      ∧ (w (publishRequest api_key chart_id)).status_code < 600) := by omega
  simp [publishExtract, raise_for_status, hcond, hj, pyDictGet, hd, hu,
    bind, Except.bind]

theorem C5_publish_returns_public_url_witness :
    (wPub (publishRequest (str "k") (str "kg7Xj"))).status_code < 400
    ∧ publish_chart wPub (str "k") (str "kg7Xj")
      = ([publishRequest (str "k") (str "kg7Xj")],
          .ok (.s (str "https://example.com/chart1"))) :=
  ⟨by decide,
    C5_publish_returns_public_url wPub (str "k") (str "kg7Xj")
      [(str "data",
        .obj [(str "publicUrl", .s (str "https://example.com/chart1"))])]
      [(str "publicUrl", .s (str "https://example.com/chart1"))]
      (str "https://example.com/chart1")
      (by decide) rfl rfl rfl⟩

/-- C6: when the publish response has a success status but its JSON body
lacks `data.publicUrl` (no `data` object, or no `publicUrl` key in it),
the publisher succeeds and returns the placeholder string. -/
theorem C6_publish_placeholder_on_missing_url (w : World)
    (api_key chart_id : Str) (fs : List (Str × JValue))
    (hst : (w (publishRequest api_key chart_id)).status_code < 400)
    (hj : (w (publishRequest api_key chart_id)).jsonBody = .obj fs)
    (hd : fs.lookup (str "data") = none
      ∨ ∃ fs2 : List (Str × JValue), fs.lookup (str "data") = some (.obj fs2)
          ∧ fs2.lookup (str "publicUrl") = none) :
    publish_chart w api_key chart_id
      = ([publishRequest api_key chart_id],
          .ok (.s (str "URL not available"))) := by
  unfold publish_chart
  have hcond : ¬ (400 ≤ (w (publishRequest api_key chart_id)).status_code
      ∧ (w (publishRequest api_key chart_id)).status_code < 600) := by omega
  rcases hd with hd | ⟨fs2, hd, hu⟩
  · simp [publishExtract, raise_for_status, hcond, hj, pyDictGet, hd,
      bind, Except.bind]
  · simp [publishExtract, raise_for_status, hcond, hj, pyDictGet, hd, hu,
      bind, Except.bind]

theorem C6_publish_placeholder_on_missing_url_witness :
    (w0 (publishRequest (str "k") (str "kg7Xj"))).status_code < 400
    ∧ publish_chart w0 (str "k") (str "kg7Xj")
      = ([publishRequest (str "k") (str "kg7Xj")],
          .ok (.s (str "URL not available"))) :=
  ⟨by decide,
    C6_publish_placeholder_on_missing_url w0 (str "k") (str "kg7Xj") []
      (by decide) rfl (Or.inl rfl)⟩

/-- C7: every run of the metadata updater performs exactly one request: a
`PATCH` of the chart endpoint with `application/json` content type whose
body is the JSON object `{"metadata": {"annotate": {"notes": ts}}}`, where
`ts` is the timestamp string formatted from the clock reading taken at
call time. -/
theorem C7_metadata_patch_payload (w : World) (api_key chart_id : Str)
    (now : PyDateTime) :
    (update_chart_metadata w api_key chart_id now).1
      = [⟨.patch, str "https://api.datawrapper.de/v3/charts/" ++ chart_id,
          [(str "Authorization", str "Bearer " ++ api_key),
            (str "Content-Type", str "application/json")],
          .jsonB (.obj [(str "metadata", .obj [(str "annotate",
            .obj [(str "notes",
              .s (str "Last updated: " ++ pyStrftime now tsFormat))])])])⟩] :=
  rfl

/-- Symbolic expansion of the timestamp format: the format string
`"%B %d, %Y at %I:%M %p UTC"` renders the given clock fields, with the
trailing `UTC` a literal (no directive consults the timezone name). -/
lemma pyStrftime_tsFormat (t : PyDateTime) :
    pyStrftime t tsFormat
      = monthName t.month ++ str " " ++ pad2 t.day ++ str ", "
        ++ natStr t.year ++ str " at " ++ pad2 (hour12 t.hour) ++ str ":"
        ++ pad2 t.minute ++ str " " ++ ampm t.hour ++ str " UTC" := by
  simp [tsFormat, str, pyStrftime, fmtDirective]

/-- C10: the notes string written by the metadata updater is
`"Last updated: "` followed by the local clock fields rendered as full
month name, zero-padded day, year, 12-hour clock time and AM/PM marker,
and then the literal suffix `" UTC"` — the right-hand side does not
depend on the timezone name `tz`, and the rendered fields are the local
ones, unconverted. -/
theorem C10_notes_local_time_with_utc_literal (w : World)
    (api_key chart_id : Str) (y mo d h mi sec : Nat) (tz : Str) :
    (update_chart_metadata w api_key chart_id ⟨y, mo, d, h, mi, sec, tz⟩).1.map
        (fun r => r.body)
      = [.jsonB (.obj [(str "metadata", .obj [(str "annotate",
          .obj [(str "notes", .s (str "Last updated: "
            ++ (monthName mo ++ str " " ++ pad2 d ++ str ", " ++ natStr y
              ++ str " at " ++ pad2 (hour12 h) ++ str ":" ++ pad2 mi
              ++ str " " ++ ampm h ++ str " UTC")))])])])] := by
  simp [update_chart_metadata, metadataRequest, pyStrftime_tsFormat]

/-- C2 as stated is false: the URL `/d/X/d/ABC123/edit` contains the
segment `/d/ABC123/edit`, yet the derived export URL is built from `X`
(the id after the FIRST `/d/`), not from `ABC123`. -/
theorem C2_counterexample :
    str "/d/ABC123/edit" <:+: str "/d/X/d/ABC123/edit"
    ∧ (get_google_sheet_csv w0 (str "/d/X/d/ABC123/edit")).1.map
        (fun r => r.url)
      ≠ [str "https://docs.google.com/spreadsheets/d/ABC123/export?format=csv"]
    ∧ (get_google_sheet_csv w0 (str "/d/X/d/ABC123/edit")).1.map
        (fun r => r.url)
      = [str "https://docs.google.com/spreadsheets/d/X/export?format=csv"] := by
  decide

/-- C2 (amended): for every URL that contains `/d/ABC123/edit` at the
FIRST occurrence of `/d/` (no occurrence of `/d/` starts inside
`p ++ "/d"`, as is the case for canonical sharing URLs), the fetch step
derives exactly the export endpoint for identifier `ABC123` in CSV
format. -/
theorem C2_export_url_from_sharing_url (w : World) (p s : Str)
    (h : ¬ str "/d/" <:+: (p ++ str "/d")) :
    (get_google_sheet_csv w (p ++ str "/d/ABC123/edit" ++ s)).1.map
        (fun r => r.url)
      = [str "https://docs.google.com/spreadsheets/d/ABC123/export?format=csv"]
      := by
  have hc : str "/d/" <:+: (p ++ str "/d/ABC123/edit" ++ s) := by
    refine ⟨p, str "ABC123/edit" ++ s, ?_⟩
    rw [show str "/d/ABC123/edit" = str "/d/" ++ str "ABC123/edit" by decide]
    simp [List.append_assoc]
  unfold get_google_sheet_csv
  rw [if_pos hc]
  simp only [List.map_cons, List.map_nil]
  rw [extractSheetId_first p s h]
  simp only [sheetCsvRequest, sheetCsvUrl]
  decide

theorem C2_export_url_from_sharing_url_witness :
    (¬ str "/d/" <:+: (str "https://docs.google.com/spreadsheets"
        ++ str "/d"))
    ∧ (get_google_sheet_csv w0 (str "https://docs.google.com/spreadsheets"
        ++ str "/d/ABC123/edit" ++ str "#gid=0")).1.map (fun r => r.url)
      = [str "https://docs.google.com/spreadsheets/d/ABC123/export?format=csv"]
      :=
  ⟨by decide,
    C2_export_url_from_sharing_url w0
      (str "https://docs.google.com/spreadsheets") (str "#gid=0")
      (by decide)⟩

/-- A successful fetch result means the URL contained the marker, the
`GET` got a success status, and the returned CSV is the response text. -/
lemma fetch_ok_shape (w : World) (u csv : Str)
    (h : (get_google_sheet_csv w u).2 = .ok csv) :
    str "/d/" <:+: u
    ∧ raise_for_status (w (sheetCsvRequest (extractSheetId u))) = .ok ()
    ∧ csv = (w (sheetCsvRequest (extractSheetId u))).text := by
  by_cases hc : str "/d/" <:+: u
  · unfold get_google_sheet_csv at h
    rw [if_pos hc] at h
    simp only [Except.map] at h
    cases hrs : raise_for_status (w (sheetCsvRequest (extractSheetId u))) with
    | error e => rw [hrs] at h; simp at h
    | ok v =>
      cases v
      rw [hrs] at h
      simp only [Except.ok.injEq] at h
      exact ⟨hc, rfl, h.symm⟩
  · unfold get_google_sheet_csv at h
    rw [if_neg hc] at h
    simp at h

/-- C8: whenever the fetch step returns a CSV text, the (single) `PUT`
request that `main` performs carries exactly that text, unparsed, as its
body, with `text/csv` content type; and no other `PUT` with a different
body occurs. -/
theorem C8_upload_body_is_fetched_csv (env : Env) (w : World)
    (now : PyDateTime) (k u csv : Str)
    (hk : env "DATAWRAPPER_API_KEY" = some k) (hk' : k ≠ [])
    (hu : env "GOOGLE_SHEET_URL" = some u) (hu' : u ≠ [])
    (hfetch : (get_google_sheet_csv w u).2 = .ok csv) :
    (∃ r ∈ (Script.main env w now).1, r.method = .put ∧ r.body = .text csv
        ∧ (str "Content-Type", str "text/csv") ∈ r.headers)
    ∧ ∀ r ∈ (Script.main env w now).1, r.method = .put → r.body = .text csv
      := by
  obtain ⟨hc, hrs, hcsv⟩ := fetch_ok_shape w u csv hfetch
  rw [main_run env w now k u ((env "DATAWRAPPER_CHART_ID").getD (str "kg7Xj"))
    csv (sheetCsvRequest (extractSheetId u))
    (dataRequest k ((env "DATAWRAPPER_CHART_ID").getD (str "kg7Xj")) csv)
    (metadataRequest k ((env "DATAWRAPPER_CHART_ID").getD (str "kg7Xj")) now)
    (publishRequest k ((env "DATAWRAPPER_CHART_ID").getD (str "kg7Xj")))
    hk hk' hu hu' hc rfl rfl hcsv rfl rfl rfl]
  simp only [hrs]
  set cid : Str := (env "DATAWRAPPER_CHART_ID").getD (str "kg7Xj") with hcid
  have hput : ∀ cid : Str, (dataRequest k cid csv).method = .put
      ∧ (dataRequest k cid csv).body = .text csv
      ∧ (str "Content-Type", str "text/csv") ∈ (dataRequest k cid csv).headers
      := by
    intro cid
    refine ⟨rfl, rfl, ?_⟩
    simp [dataRequest]
  cases hp : raise_for_status (w (dataRequest k cid csv)) with
  | error e =>
    refine ⟨⟨dataRequest k cid csv, by simp, hput cid⟩, ?_⟩
    intro r hr hm
    simp only [List.mem_cons, List.not_mem_nil, or_false] at hr
    rcases hr with rfl | rfl
    · exact HttpMethod.noConfusion hm
    · rfl
  | ok v2 =>
    cases hpa : raise_for_status (w (metadataRequest k cid now)) with
    | error e =>
      refine ⟨⟨dataRequest k cid csv, by simp, hput cid⟩, ?_⟩
      intro r hr hm
      simp only [List.mem_cons, List.not_mem_nil, or_false] at hr
      rcases hr with rfl | rfl | rfl
      · exact HttpMethod.noConfusion hm
      · rfl
      · exact HttpMethod.noConfusion hm
    | ok v3 =>
      refine ⟨⟨dataRequest k cid csv, by simp, hput cid⟩, ?_⟩
      intro r hr hm
      simp only [List.mem_cons, List.not_mem_nil, or_false] at hr
      rcases hr with rfl | rfl | rfl | rfl
      · exact HttpMethod.noConfusion hm
      · rfl
      · exact HttpMethod.noConfusion hm
      · exact HttpMethod.noConfusion hm

theorem C8_upload_body_is_fetched_csv_witness :
    (∃ r ∈ (Script.main env1 w0 now0).1, r.method = .put
        ∧ r.body = .text (str "a,b")
        ∧ (str "Content-Type", str "text/csv") ∈ r.headers)
    ∧ ∀ r ∈ (Script.main env1 w0 now0).1, r.method = .put
        → r.body = .text (str "a,b") :=
  C8_upload_body_is_fetched_csv env1 w0 now0 (str "secret")
    (str "https://docs.google.com/spreadsheets/d/ABC123/edit#gid=0")
    (str "a,b") (by decide) (by decide) (by decide) (by decide) rfl

/-- C1: if every request of one of the four steps (identified by its verb
`m`) is answered with a non-success status, then `main` ends in an error
and its request trace contains no request of any later step: the first
failure aborts the rest of the pipeline. -/
theorem C1_failure_stops_run (env : Env) (w : World) (now : PyDateTime)
    (m : HttpMethod)
    (hfail : ∀ req : HttpRequest, req.method = m →
      400 ≤ (w req).status_code ∧ (w req).status_code < 600) :
    (∃ e, (Script.main env w now).2 = .error e)
    ∧ ∀ r ∈ (Script.main env w now).1, stepIdx r.method ≤ stepIdx m := by
  by_cases hk0 : isFalsyStr (env "DATAWRAPPER_API_KEY") = true
  · unfold Script.main
    rw [if_pos hk0]
    exact ⟨⟨_, rfl⟩, by simp⟩
  · by_cases hu0 : isFalsyStr (env "GOOGLE_SHEET_URL") = true
    · unfold Script.main
      rw [if_neg hk0, if_pos hu0]
      exact ⟨⟨_, rfl⟩, by simp⟩
    · obtain ⟨k, hk1, hk2⟩ : ∃ k, env "DATAWRAPPER_API_KEY" = some k ∧ k ≠ []
        := by
        cases henv : env "DATAWRAPPER_API_KEY" with
        | none => rw [henv] at hk0; exact absurd rfl hk0
        | some k0 =>
          refine ⟨k0, rfl, ?_⟩
          rintro rfl
          rw [henv] at hk0
          exact hk0 rfl
      obtain ⟨u, hu1, hu2⟩ : ∃ u, env "GOOGLE_SHEET_URL" = some u ∧ u ≠ []
        := by
        cases henv : env "GOOGLE_SHEET_URL" with
        | none => rw [henv] at hu0; exact absurd rfl hu0
        | some u0 =>
          refine ⟨u0, rfl, ?_⟩
          rintro rfl
          rw [henv] at hu0
          exact hu0 rfl
      by_cases hc : str "/d/" <:+: u
      · rw [main_run env w now k u
          ((env "DATAWRAPPER_CHART_ID").getD (str "kg7Xj"))
          ((w (sheetCsvRequest (extractSheetId u))).text)
          (sheetCsvRequest (extractSheetId u))
          (dataRequest k ((env "DATAWRAPPER_CHART_ID").getD (str "kg7Xj"))
            ((w (sheetCsvRequest (extractSheetId u))).text))
          (metadataRequest k ((env "DATAWRAPPER_CHART_ID").getD (str "kg7Xj"))
            now)
          (publishRequest k ((env "DATAWRAPPER_CHART_ID").getD (str "kg7Xj")))
          hk1 hk2 hu1 hu2 hc rfl rfl rfl rfl rfl rfl]
        set cid : Str := (env "DATAWRAPPER_CHART_ID").getD (str "kg7Xj")
          with hcid
        set g : HttpRequest := sheetCsvRequest (extractSheetId u) with hgdef
        set p2 : HttpRequest := dataRequest k cid (w g).text with hp2def
        set pa : HttpRequest := metadataRequest k cid now with hpadef
        set po : HttpRequest := publishRequest k cid with hpodef
        cases hg : raise_for_status (w g) with
        | error e =>
          refine ⟨⟨e, rfl⟩, ?_⟩
          intro r hr
          simp only [List.mem_cons, List.not_mem_nil, or_false] at hr
          subst hr
          exact Nat.zero_le _
        | ok v =>
          cases v
          have hmg : m ≠ .get := by
            rintro rfl
            have hbad := hfail g rfl
            unfold raise_for_status at hg
            rw [if_pos hbad] at hg
            exact Except.noConfusion hg
          cases hp : raise_for_status (w p2) with
          | error e =>
            refine ⟨⟨e, rfl⟩, ?_⟩
            intro r hr
            simp only [List.mem_cons, List.not_mem_nil, or_false] at hr
            rcases hr with rfl | rfl
            · exact Nat.zero_le _
            · cases m with
              | get => exact absurd rfl hmg
              | put => exact le_rfl
              | patch => exact Nat.le_of_sub_eq_zero rfl
              | post => exact Nat.le_of_sub_eq_zero rfl
          | ok v2 =>
            cases v2
            have hmp : m ≠ .put := by
              rintro rfl
              have hbad := hfail p2 rfl
              unfold raise_for_status at hp
              rw [if_pos hbad] at hp
              exact Except.noConfusion hp
            cases hpa : raise_for_status (w pa) with
            | error e =>
              refine ⟨⟨e, rfl⟩, ?_⟩
              intro r hr
              simp only [List.mem_cons, List.not_mem_nil, or_false] at hr
              rcases hr with rfl | rfl | rfl
              · exact Nat.zero_le _
              · cases m with
                | get => exact absurd rfl hmg
                | put => exact le_rfl
                | patch => exact Nat.le_of_sub_eq_zero rfl
                | post => exact Nat.le_of_sub_eq_zero rfl
              · cases m with
                | get => exact absurd rfl hmg
                | put => exact absurd rfl hmp
                | patch => exact le_rfl
                | post => exact Nat.le_of_sub_eq_zero rfl
            | ok v3 =>
              cases v3
              have hmpa : m ≠ .patch := by
                rintro rfl
                have hbad := hfail pa rfl
                unfold raise_for_status at hpa
                rw [if_pos hbad] at hpa
                exact Except.noConfusion hpa
              cases m with
              | get => exact absurd rfl hmg
              | put => exact absurd rfl hmp
              | patch => exact absurd rfl hmpa
              | post =>
                have hbad := hfail po rfl
                have hpoe : publishExtract (w po)
                    = .error (.httpError (w po).status_code) := by
                  unfold publishExtract raise_for_status
                  rw [if_pos hbad]
                  rfl
                refine ⟨⟨.httpError (w po).status_code, ?_⟩, ?_⟩
                · show ((publishExtract (w po)).map fun _ => ())
                    = .error (.httpError (w po).status_code)
                  rw [hpoe]
                  rfl
                · intro r hr
                  simp only [List.mem_cons, List.not_mem_nil, or_false] at hr
                  rcases hr with rfl | rfl | rfl | rfl
                  · exact Nat.zero_le _
                  · exact Nat.le_of_sub_eq_zero rfl
                  · exact Nat.le_of_sub_eq_zero rfl
                  · exact le_rfl
      · unfold Script.main
        rw [if_neg hk0, if_neg hu0]
        have hfetch0 : get_google_sheet_csv w ((env "GOOGLE_SHEET_URL").getD [])
            = ([], .error (.valueError
                (str "Invalid Google Sheets URL format"))) := by
          rw [hu1]
          simp only [Option.getD_some]
          unfold get_google_sheet_csv
          rw [if_neg hc]
        simp only [hfetch0]
        exact ⟨⟨_, rfl⟩, by simp⟩

theorem C1_failure_stops_run_witness :
    (∃ e, (Script.main env1 wErr now0).2 = .error e)
    ∧ ∀ r ∈ (Script.main env1 wErr now0).1,
        stepIdx r.method ≤ stepIdx .get :=
  C1_failure_stops_run env1 wErr now0 .get
    (fun req _ => (by decide : (400 : Nat) ≤ 500 ∧ (500 : Nat) < 600))
